import Mathlib

/-!
Verification of `ext/ieee_fpu_control.c` from the float-formats repository.

The C file is a thin adapter exposing the processor floating-point
environment. It has two backends:

* Backend A (`fenv.h`): wrappers `mIEEE_FPU_fegetround` and
  `mIEEE_FPU_fesetround` around the libc primitives `fegetround` and
  `fesetround`.
* Backend B (`fpu_control.h`): `mIEEE_FPU_fpu_getround`,
  `mIEEE_FPU_fpu_setround`, `mIEEE_FPU_fpu_getprec`,
  `mIEEE_FPU_fpu_setprec`, which read and write a 16-bit hardware
  control word (`fpu_control_t`, a 16-bit unsigned type on x86) using
  bit masks.

We embed the control word as a natural number; all arithmetic that the
C type system performs modulo 2^16 is written with an explicit
`% 2 ^ 16`.  Each operation is a state transformer
`state → result × state`, where for backend B the state is the control
word and for backend A the state is the active rounding mode held by
the floating-point environment.
-/

namespace IEEE_FPU

/-! ### Platform constants

The numeric encodings are platform-defined; these are the x86 glibc
values of the `fpu_control.h` and `fenv.h` constants that the C file
re-exports (`_FPU_RC_NEAREST`, `_FPU_RC_DOWN`, `_FPU_RC_UP`,
`_FPU_RC_ZERO`, `_FPU_EXTENDED`, `_FPU_DOUBLE`, `_FPU_SINGLE`,
`FE_TONEAREST`, `FE_DOWNWARD`, `FE_UPWARD`, `FE_TOWARDZERO`). -/

def FPU_RC_NEAREST : Nat := 0x000

def FPU_RC_DOWN : Nat := 0x400

def FPU_RC_UP : Nat := 0x800

def FPU_RC_ZERO : Nat := 0xC00

def FPU_EXTENDED : Nat := 0x300

def FPU_DOUBLE : Nat := 0x200

def FPU_SINGLE : Nat := 0x000

def FE_TONEAREST : Nat := 0x000

def FE_DOWNWARD : Nat := 0x400

def FE_UPWARD : Nat := 0x800

def FE_TOWARDZERO : Nat := 0xC00

/-- The rounding mask of backend B, exactly as built in the C source:
`_FPU_RC_NEAREST|_FPU_RC_DOWN|_FPU_RC_UP|_FPU_RC_ZERO`. -/
def roundingMask : Nat := FPU_RC_NEAREST ||| FPU_RC_DOWN ||| FPU_RC_UP ||| FPU_RC_ZERO

/-- The precision mask of backend B, exactly as built in the C source:
`_FPU_EXTENDED|_FPU_DOUBLE|_FPU_SINGLE`. -/
def precisionMask : Nat := FPU_EXTENDED ||| FPU_DOUBLE ||| FPU_SINGLE

/-- The C complement `~m` on the 16-bit `fpu_control_t` word. -/
def compl16 (m : Nat) : Nat := (2 ^ 16 - 1) ^^^ m

/-! ### Backend B (`fpu_control.h`), from the C source

State: the 16-bit control word `c` obtained by `_FPU_GETCW`.
Each function returns `(ruby result, control word after the call)`. -/

/-- `mIEEE_FPU_fpu_getround`: reads the control word and returns
`c & mask` with the rounding mask; no `_FPU_SETCW`, so the word is
unchanged. -/
def mIEEE_FPU_fpu_getround (c : Nat) : Nat × Nat :=
  (c &&& roundingMask, c)

/-- `mIEEE_FPU_fpu_setround`: reads the control word `c`, computes
`new_c = c; new_c &= ~mask; new_c |= mode;` (each step on the 16-bit
`fpu_control_t`, hence the `% 2 ^ 16`), stores `new_c` with
`_FPU_SETCW`, and returns the pre-write `c & mask`. -/
def mIEEE_FPU_fpu_setround (c mode : Nat) : Nat × Nat :=
  let new_c := ((c &&& compl16 roundingMask) ||| mode) % 2 ^ 16
  (c &&& roundingMask, new_c)

/-- `mIEEE_FPU_fpu_getprec`: reads the control word and returns
`c & mask` with the precision mask; the word is unchanged. -/
def mIEEE_FPU_fpu_getprec (c : Nat) : Nat × Nat :=
  (c &&& precisionMask, c)

/-- `mIEEE_FPU_fpu_setprec`: same read-modify-write as
`mIEEE_FPU_fpu_setround` but with the precision mask; returns the
pre-write `c & mask`. -/
def mIEEE_FPU_fpu_setprec (c prec : Nat) : Nat × Nat :=
  let new_c := ((c &&& compl16 precisionMask) ||| prec) % 2 ^ 16
  (c &&& precisionMask, new_c)

/-! ### Backend A (`fenv.h`)

The libc primitives `fegetround` and `fesetround` are platform code,
not part of this repository; they are modelled from the spec.  The
floating-point environment state relevant to these calls is the active
rounding mode. -/

/-- Modelled from the spec: libc `fegetround` queries the currently
active rounding mode of the floating-point environment, with no side
effect. -/
def fegetround (s : Nat) : Nat := s

/-- Whether `m` is one of the four valid `fenv.h` rounding modes. -/
def isValidFE (m : Nat) : Bool :=
  m == FE_TONEAREST || m == FE_DOWNWARD || m == FE_UPWARD || m == FE_TOWARDZERO

/-- Modelled from the spec: libc `fesetround` installs a valid rounding
mode; for an invalid mode value "the call is a no-op and the subsequent
query reflects the unchanged state". -/
def fesetround (s m : Nat) : Nat :=
  if isValidFE m then m else s

/-- `mIEEE_FPU_fegetround`: returns `fegetround()`; no state change. -/
def mIEEE_FPU_fegetround (s : Nat) : Nat × Nat :=
  (fegetround s, s)

/-- `mIEEE_FPU_fesetround`: calls `fesetround(mode)` and then returns
`fegetround()`, i.e. the re-queried post-call mode. -/
def mIEEE_FPU_fesetround (s mode : Nat) : Nat × Nat :=
  let s2 := fesetround s mode
  (fegetround s2, s2)

/-! ### Bitwise helper lemmas -/

theorem lor_land_distrib (x y m : Nat) : (x ||| y) &&& m = (x &&& m) ||| (y &&& m) :=
  Nat.eq_of_testBit_eq fun i => by
    simp only [Nat.testBit_and, Nat.testBit_or]
    cases x.testBit i <;> cases y.testBit i <;> cases m.testBit i <;> rfl

theorem mod_pow16_land (x m : Nat) (h : m < 2 ^ 16) : x % 2 ^ 16 &&& m = x &&& m :=
  Nat.eq_of_testBit_eq fun i => by
    simp only [Nat.testBit_and, Nat.testBit_mod_two_pow]
    by_cases hi : i < 16
    · simp [hi]
    · have hm : m.testBit i = false :=
        Nat.testBit_lt_two_pow
          (Nat.lt_of_lt_of_le h (Nat.pow_le_pow_right (by decide) (Nat.le_of_not_lt hi)))
      simp [hm]

theorem land_zero_eq (x : Nat) : x &&& 0 = 0 :=
  Nat.eq_of_testBit_eq fun i => by
    simp [Nat.testBit_and]

theorem lor_zero_eq (x : Nat) : x ||| 0 = x :=
  Nat.eq_of_testBit_eq fun i => by
    simp [Nat.testBit_or]

theorem zero_lor_eq (x : Nat) : 0 ||| x = x :=
  Nat.eq_of_testBit_eq fun i => by
    simp [Nat.testBit_or]

/-- The word written by `fpu_setround`, observed through any 16-bit mask `t`. -/
theorem setround_new_land (c m t : Nat) (ht : t < 2 ^ 16) :
    (mIEEE_FPU_fpu_setround c m).2 &&& t =
      (c &&& (compl16 roundingMask &&& t)) ||| (m &&& t) := by
  show ((c &&& compl16 roundingMask ||| m) % 2 ^ 16) &&& t = _
  rw [mod_pow16_land _ _ ht, lor_land_distrib, Nat.land_assoc]

/-- The word written by `fpu_setprec`, observed through any 16-bit mask `t`. -/
theorem setprec_new_land (c p t : Nat) (ht : t < 2 ^ 16) :
    (mIEEE_FPU_fpu_setprec c p).2 &&& t =
      (c &&& (compl16 precisionMask &&& t)) ||| (p &&& t) := by
  show ((c &&& compl16 precisionMask ||| p) % 2 ^ 16) &&& t = _
  rw [mod_pow16_land _ _ ht, lor_land_distrib, Nat.land_assoc]

/-! ### Claim theorems -/

/-- C1: `fpu_setround` reads the control word `c`, clears exactly the
rounding-mask bits, ORs the mode into the cleared field, writes the
whole word back — the new control word equals
`(c AND NOT roundingMask) OR m` — and returns the pre-write rounding
bits `c AND roundingMask`, which for some states differ from the
post-write value. -/
theorem fpu_setround_rmw_spec (c m : Nat) (hm : m < 2 ^ 16) :
    ((mIEEE_FPU_fpu_setround c m).2 = (c &&& compl16 roundingMask) ||| m ∧
      (mIEEE_FPU_fpu_setround c m).1 = c &&& roundingMask) ∧
    ∃ c0 m0 : Nat, (mIEEE_FPU_fpu_setround c0 m0).1 ≠
      (mIEEE_FPU_fpu_getround (mIEEE_FPU_fpu_setround c0 m0).2).1 := by
  refine ⟨⟨?_, rfl⟩, 0x400, 0, by decide⟩
  show ((c &&& compl16 roundingMask) ||| m) % 2 ^ 16 = _
  exact Nat.mod_eq_of_lt (Nat.or_lt_two_pow (Nat.and_lt_two_pow c (by decide)) hm)

/-- C1 witness at `c = 0x1234`, `m = FPU_RC_DOWN`. -/
theorem fpu_setround_rmw_spec_witness :
    ((mIEEE_FPU_fpu_setround 0x1234 FPU_RC_DOWN).2 =
        (0x1234 &&& compl16 roundingMask) ||| FPU_RC_DOWN ∧
      (mIEEE_FPU_fpu_setround 0x1234 FPU_RC_DOWN).1 = 0x1234 &&& roundingMask) ∧
    ∃ c0 m0 : Nat, (mIEEE_FPU_fpu_setround c0 m0).1 ≠
      (mIEEE_FPU_fpu_getround (mIEEE_FPU_fpu_setround c0 m0).2).1 :=
  fpu_setround_rmw_spec 0x1234 FPU_RC_DOWN (by decide)

/-- C2 counterexample: the claim quantifies over every mode `m`, but a
mode with a precision-mask bit set changes `fpu_getprec`: from control
word 0, `fpu_setround(FPU_DOUBLE)` flips the result of `fpu_getprec`. -/
theorem setround_prec_interference_cex :
    (mIEEE_FPU_fpu_getprec (mIEEE_FPU_fpu_setround 0 FPU_DOUBLE).2).1 ≠
      (mIEEE_FPU_fpu_getprec 0).1 := by decide

/-- C2 (amended): non-interference holds for every control word once
the written mode is confined to its own mask: if `m` has bits only
inside `roundingMask` then `fpu_setround(m)` preserves `fpu_getprec`,
and if `p` has bits only inside `precisionMask` then `fpu_setprec(p)`
preserves `fpu_getround`. -/
theorem fpu_set_noninterference (c m p : Nat)
    (hm : m &&& roundingMask = m) (hp : p &&& precisionMask = p) :
    (mIEEE_FPU_fpu_getprec (mIEEE_FPU_fpu_setround c m).2).1 =
      (mIEEE_FPU_fpu_getprec c).1 ∧
    (mIEEE_FPU_fpu_getround (mIEEE_FPU_fpu_setprec c p).2).1 =
      (mIEEE_FPU_fpu_getround c).1 := by
  constructor
  · show (mIEEE_FPU_fpu_setround c m).2 &&& precisionMask = c &&& precisionMask
    rw [setround_new_land _ _ _ (by decide)]
    have h1 : compl16 roundingMask &&& precisionMask = precisionMask := by decide
    have h2 : m &&& precisionMask = 0 := by
      rw [← hm, Nat.land_assoc]
      have h3 : roundingMask &&& precisionMask = 0 := by decide
      rw [h3, land_zero_eq]
    rw [h1, h2, lor_zero_eq]
  · show (mIEEE_FPU_fpu_setprec c p).2 &&& roundingMask = c &&& roundingMask
    rw [setprec_new_land _ _ _ (by decide)]
    have h1 : compl16 precisionMask &&& roundingMask = roundingMask := by decide
    have h2 : p &&& roundingMask = 0 := by
      rw [← hp, Nat.land_assoc]
      have h3 : precisionMask &&& roundingMask = 0 := by decide
      rw [h3, land_zero_eq]
    rw [h1, h2, lor_zero_eq]

/-- C2 witness at `c = 0x1234`, `m = FPU_RC_DOWN`, `p = FPU_EXTENDED`. -/
theorem fpu_set_noninterference_witness :
    (mIEEE_FPU_fpu_getprec (mIEEE_FPU_fpu_setround 0x1234 FPU_RC_DOWN).2).1 =
      (mIEEE_FPU_fpu_getprec 0x1234).1 ∧
    (mIEEE_FPU_fpu_getround (mIEEE_FPU_fpu_setprec 0x1234 FPU_EXTENDED).2).1 =
      (mIEEE_FPU_fpu_getround 0x1234).1 :=
  fpu_set_noninterference 0x1234 FPU_RC_DOWN FPU_EXTENDED (by decide) (by decide)

/-- C3: for each of the four valid `fenv.h` modes, `fegetround`
immediately after `fesetround(m)` returns `m`. -/
theorem fesetround_fegetround_roundtrip (s m : Nat)
    (hm : m = FE_TONEAREST ∨ m = FE_DOWNWARD ∨ m = FE_UPWARD ∨ m = FE_TOWARDZERO) :
    (mIEEE_FPU_fegetround (mIEEE_FPU_fesetround s m).2).1 = m := by
  rcases hm with h | h | h | h <;> subst h <;> rfl

/-- C3 witness at `s = 1`, `m = FE_UPWARD`. -/
theorem fesetround_fegetround_roundtrip_witness :
    (mIEEE_FPU_fegetround (mIEEE_FPU_fesetround 1 FE_UPWARD).2).1 = FE_UPWARD :=
  fesetround_fegetround_roundtrip 1 FE_UPWARD (Or.inr (Or.inr (Or.inl rfl)))

/-- C4 counterexample: the claim says every mode argument is installed
as the active rounding mode, but the invalid mode 1 is not installed —
from state `FE_DOWNWARD`, after `fesetround(1)` the environment still
holds `FE_DOWNWARD`, not 1 (and the return value is `FE_DOWNWARD`,
not the echoed argument). -/
theorem fesetround_installs_cex : (mIEEE_FPU_fesetround FE_DOWNWARD 1).2 ≠ 1 := by decide

/-- C4 (amended): `fesetround`'s return value always equals the
re-queried post-call rounding mode (`fegetround` applied to the
post-call state); a valid mode is installed as the active mode; and
the return is not the caller's argument echoed back unchecked — for
some state and argument they differ. -/
theorem fesetround_requery_spec :
    (∀ s m : Nat, (mIEEE_FPU_fesetround s m).1 =
      (mIEEE_FPU_fegetround (mIEEE_FPU_fesetround s m).2).1) ∧
    (∀ s m : Nat,
      (m = FE_TONEAREST ∨ m = FE_DOWNWARD ∨ m = FE_UPWARD ∨ m = FE_TOWARDZERO) →
      (mIEEE_FPU_fesetround s m).2 = m) ∧
    (∃ s m : Nat, (mIEEE_FPU_fesetround s m).1 ≠ m) := by
  refine ⟨fun s m => rfl, fun s m hm => ?_, FE_DOWNWARD, 1, by decide⟩
  rcases hm with h | h | h | h <;> subst h <;> rfl

/-- C4 witness at `s = 0, m = 7` (return equals re-query) and
`s = 0, m = FE_TOWARDZERO` (valid mode installed). -/
theorem fesetround_requery_spec_witness :
    (mIEEE_FPU_fesetround 0 7).1 =
      (mIEEE_FPU_fegetround (mIEEE_FPU_fesetround 0 7).2).1 ∧
    (mIEEE_FPU_fesetround 0 FE_TOWARDZERO).2 = FE_TOWARDZERO :=
  ⟨fesetround_requery_spec.1 0 7,
    fesetround_requery_spec.2.1 0 FE_TOWARDZERO (Or.inr (Or.inr (Or.inr rfl)))⟩

/-- C5: for every control word, `fpu_getround` returns a value with
only rounding-mask bits set — never precision-mask bits or bits of any
other field — and `fpu_getprec` returns only precision-mask bits. -/
theorem fpu_get_mask_correct (c : Nat) :
    ((mIEEE_FPU_fpu_getround c).1 &&& roundingMask = (mIEEE_FPU_fpu_getround c).1 ∧
      (mIEEE_FPU_fpu_getround c).1 &&& precisionMask = 0) ∧
    ((mIEEE_FPU_fpu_getprec c).1 &&& precisionMask = (mIEEE_FPU_fpu_getprec c).1 ∧
      (mIEEE_FPU_fpu_getprec c).1 &&& roundingMask = 0) := by
  have hrr : roundingMask &&& roundingMask = roundingMask := by decide
  have hrp : roundingMask &&& precisionMask = 0 := by decide
  have hpp : precisionMask &&& precisionMask = precisionMask := by decide
  have hpr : precisionMask &&& roundingMask = 0 := by decide
  refine ⟨⟨?_, ?_⟩, ?_, ?_⟩
  · show c &&& roundingMask &&& roundingMask = c &&& roundingMask
    rw [Nat.land_assoc, hrr]
  · show c &&& roundingMask &&& precisionMask = 0
    rw [Nat.land_assoc, hrp, land_zero_eq]
  · show c &&& precisionMask &&& precisionMask = c &&& precisionMask
    rw [Nat.land_assoc, hpp]
  · show c &&& precisionMask &&& roundingMask = 0
    rw [Nat.land_assoc, hpr, land_zero_eq]

/-- C6: the set-operations apply no masking to the caller's argument:
an argument bit outside the relevant mask ends up set in the written
control word — `fpu_setround(FPU_DOUBLE)` writes the precision bit
`FPU_DOUBLE` into the word, and `fpu_setprec(FPU_RC_DOWN)` writes the
rounding bit `FPU_RC_DOWN`. -/
theorem fpu_set_permissive_leak :
    (mIEEE_FPU_fpu_setround 0 FPU_DOUBLE).2 &&& FPU_DOUBLE ≠ 0 ∧
    (mIEEE_FPU_fpu_setprec 0 FPU_RC_DOWN).2 &&& FPU_RC_DOWN ≠ 0 := by decide

/-- C7: idempotence of set-rounding-mode on both backends. Backend A:
for a valid mode `m`, both of two consecutive `fesetround(m)` calls
return `m`. Backend B: for a valid mode `m`, the second of two
consecutive `fpu_setround(m)` calls returns `m`, and once the state
has converged (`c AND roundingMask = m`) the first call already
returns `m` as well. -/
theorem set_round_idempotent :
    (∀ s m : Nat,
      (m = FE_TONEAREST ∨ m = FE_DOWNWARD ∨ m = FE_UPWARD ∨ m = FE_TOWARDZERO) →
      (mIEEE_FPU_fesetround s m).1 = m ∧
      (mIEEE_FPU_fesetround (mIEEE_FPU_fesetround s m).2 m).1 = m) ∧
    (∀ c m : Nat,
      (m = FPU_RC_NEAREST ∨ m = FPU_RC_DOWN ∨ m = FPU_RC_UP ∨ m = FPU_RC_ZERO) →
      (mIEEE_FPU_fpu_setround (mIEEE_FPU_fpu_setround c m).2 m).1 = m ∧
      (c &&& roundingMask = m → (mIEEE_FPU_fpu_setround c m).1 = m)) := by
  constructor
  · intro s m hm
    rcases hm with h | h | h | h <;> subst h <;> exact ⟨rfl, rfl⟩
  · intro c m hm
    have hz : compl16 roundingMask &&& roundingMask = 0 := by decide
    constructor
    · show (mIEEE_FPU_fpu_setround c m).2 &&& roundingMask = m
      rw [setround_new_land _ _ _ (by decide), hz, land_zero_eq, zero_lor_eq]
      rcases hm with h | h | h | h <;> subst h <;> decide
    · intro hc
      exact hc

/-- C7 witness: backend A at `s = 0, m = FE_UPWARD`; backend B at
`c = FPU_RC_UP, m = FPU_RC_UP` (converged state). -/
theorem set_round_idempotent_witness :
    ((mIEEE_FPU_fesetround 0 FE_UPWARD).1 = FE_UPWARD ∧
      (mIEEE_FPU_fesetround (mIEEE_FPU_fesetround 0 FE_UPWARD).2 FE_UPWARD).1 = FE_UPWARD) ∧
    ((mIEEE_FPU_fpu_setround (mIEEE_FPU_fpu_setround FPU_RC_UP FPU_RC_UP).2 FPU_RC_UP).1 =
        FPU_RC_UP ∧
      (mIEEE_FPU_fpu_setround FPU_RC_UP FPU_RC_UP).1 = FPU_RC_UP) :=
  ⟨set_round_idempotent.1 0 FE_UPWARD (Or.inr (Or.inr (Or.inl rfl))),
    (set_round_idempotent.2 FPU_RC_UP FPU_RC_UP (Or.inr (Or.inr (Or.inl rfl)))).1,
    (set_round_idempotent.2 FPU_RC_UP FPU_RC_UP (Or.inr (Or.inr (Or.inl rfl)))).2
      (by decide)⟩

/-- C8: from any starting control word, `fpu_setprec(FPU_DOUBLE)` then
`fpu_setround(FPU_RC_ZERO)` then `fpu_getprec` yields `FPU_DOUBLE` —
the intervening rounding-mode write does not disturb the precision
field. -/
theorem fpu_cross_field_isolation (c : Nat) :
    (mIEEE_FPU_fpu_getprec
      ((mIEEE_FPU_fpu_setround ((mIEEE_FPU_fpu_setprec c FPU_DOUBLE).2) FPU_RC_ZERO).2)).1 =
      FPU_DOUBLE := by
  show (mIEEE_FPU_fpu_setround ((mIEEE_FPU_fpu_setprec c FPU_DOUBLE).2) FPU_RC_ZERO).2 &&&
      precisionMask = FPU_DOUBLE
  rw [setround_new_land _ _ _ (by decide)]
  have h1 : compl16 roundingMask &&& precisionMask = precisionMask := by decide
  have h2 : FPU_RC_ZERO &&& precisionMask = 0 := by decide
  rw [h1, h2, lor_zero_eq, setprec_new_land _ _ _ (by decide)]
  have h3 : compl16 precisionMask &&& precisionMask = 0 := by decide
  rw [h3, land_zero_eq, zero_lor_eq]
  decide

/-- C9: the get operations are side-effect free — `fpu_getround` and
`fpu_getprec` leave the control word unchanged, and `fegetround`
leaves the floating-point environment unchanged. -/
theorem get_ops_no_side_effects (c s : Nat) :
    (mIEEE_FPU_fpu_getround c).2 = c ∧ (mIEEE_FPU_fpu_getprec c).2 = c ∧
    (mIEEE_FPU_fegetround s).2 = s :=
  ⟨rfl, rfl, rfl⟩

/-- C10: for every control word and every argument (even one with
out-of-mask bits), the value returned by `fpu_setround` has only
rounding-mask bits set and the value returned by `fpu_setprec` has
only precision-mask bits set, since each returns the pre-write word
ANDed with its mask. -/
theorem fpu_set_return_confined (c m p : Nat) :
    ((mIEEE_FPU_fpu_setround c m).1 &&& roundingMask = (mIEEE_FPU_fpu_setround c m).1 ∧
      (mIEEE_FPU_fpu_setround c m).1 &&& precisionMask = 0) ∧
    ((mIEEE_FPU_fpu_setprec c p).1 &&& precisionMask = (mIEEE_FPU_fpu_setprec c p).1 ∧
      (mIEEE_FPU_fpu_setprec c p).1 &&& roundingMask = 0) := by
  have hrr : roundingMask &&& roundingMask = roundingMask := by decide
  have hrp : roundingMask &&& precisionMask = 0 := by decide
  have hpp : precisionMask &&& precisionMask = precisionMask := by decide
  have hpr : precisionMask &&& roundingMask = 0 := by decide
  refine ⟨⟨?_, ?_⟩, ?_, ?_⟩
  · show c &&& roundingMask &&& roundingMask = c &&& roundingMask
    rw [Nat.land_assoc, hrr]
  · show c &&& roundingMask &&& precisionMask = 0
    rw [Nat.land_assoc, hrp, land_zero_eq]
  · show c &&& precisionMask &&& precisionMask = c &&& precisionMask
    rw [Nat.land_assoc, hpp]
  · show c &&& precisionMask &&& roundingMask = 0
    rw [Nat.land_assoc, hpr, land_zero_eq]

end IEEE_FPU
